import Mathlib

/-!
HiddenOrderDEX — shallow embedding

A shallow embedding of the `HiddenOrderDEX` Solidity contract.  Ciphertext
handles (`euint32`, `ebool`) are modelled by the plaintext values they
encrypt (`Nat` below `2^32`, `Bool`): every FHE operation the contract uses
(`add`, `div`, `eq`, `ge`, `gt`, `lt`, `and`, `select`) is a deterministic
homomorphic image of the corresponding plaintext operation, with `add`
wrapping modulo `2^32` on `euint32`.  Solidity mappings become total
functions with the zero value as default, the two order-book arrays become
lists, `msg.sender` becomes an explicit `caller` argument, `require`
failures become `Except.error` (so a failing call is atomic by
construction), and emitted events are returned alongside the new state.
`keccak256 (abi.encodePacked (a, b))` is embedded as a full executable
Keccak-256 over the 64-byte big-endian concatenation of the two words.
-/

/-- One 64-bit left rotation (operands are lanes, i.e. naturals below `2^64`). -/
def rotl64 (x n : Nat) : Nat :=
  ((x <<< n) % 2 ^ 64) ||| (x >>> (64 - n))

/-- Keccak ρ rotation offsets, indexed by lane position `x + 5*y`, generated
from the FIPS 202 coordinate walk `(x, y) ↦ (y, (2x + 3y) mod 5)` starting at
`(1, 0)`, with the offset of step `t` equal to `(t+1)(t+2)/2 mod 64`. -/
def keccakRho : List Nat :=
  ((List.range 24).foldl
    (fun st t =>
      ((st.1.2, (2 * st.1.1 + 3 * st.1.2) % 5),
       st.2.set (st.1.1 + 5 * st.1.2) ((t + 1) * (t + 2) / 2 % 64)))
    ((1, 0), List.replicate 25 0)).2

/-- One step of the degree-8 LFSR (`x^8 + x^6 + x^5 + x^4 + 1`) that generates
the Keccak ι round-constant bits. -/
def keccakLfsrStep (r : Nat) : Nat :=
  ((r <<< 1) ^^^ ((r >>> 7) * 0x71)) % 256

/-- The LFSR byte after `t` steps from the seed `1`. -/
def keccakLfsr : Nat → Nat
  | 0 => 1
  | t + 1 => keccakLfsrStep (keccakLfsr t)

/-- The ι round constant of round `ir`: bit `rc(j + 7*ir)` goes to position
`2^j - 1` for `j = 0..6`. -/
def keccakRCAt (ir : Nat) : Nat :=
  (List.range 7).foldl (fun acc j => acc ||| ((keccakLfsr (j + 7 * ir) % 2) <<< (2 ^ j - 1))) 0

/-- Keccak ι round constants for the 24 rounds of Keccak-f[1600]. -/
def keccakRC : List Nat :=
  (List.range 24).map keccakRCAt

/-- θ step of Keccak-f on a 25-lane state. -/
def keccakTheta (A : List Nat) : List Nat :=
  let C := (List.range 5).map fun x =>
    A.getD x 0 ^^^ A.getD (x + 5) 0 ^^^ A.getD (x + 10) 0 ^^^ A.getD (x + 15) 0 ^^^ A.getD (x + 20) 0
  let D := (List.range 5).map fun x =>
    C.getD ((x + 4) % 5) 0 ^^^ rotl64 (C.getD ((x + 1) % 5) 0) 1
  (List.range 25).map fun i => A.getD i 0 ^^^ D.getD (i % 5) 0

/-- Combined ρ and π steps of Keccak-f. -/
def keccakRhoPi (A : List Nat) : List Nat :=
  (List.range 25).foldl
    (fun B t =>
      let x := t % 5
      let y := t / 5
      B.set (y + 5 * ((2 * x + 3 * y) % 5)) (rotl64 (A.getD (x + 5 * y) 0) (keccakRho.getD (x + 5 * y) 0)))
    (List.replicate 25 0)

/-- χ step of Keccak-f. -/
def keccakChi (B : List Nat) : List Nat :=
  (List.range 25).map fun i =>
    let x := i % 5
    let y := i / 5
    B.getD i 0 ^^^ ((B.getD ((x + 1) % 5 + 5 * y) 0 ^^^ (2 ^ 64 - 1)) &&& B.getD ((x + 2) % 5 + 5 * y) 0)

/-- One round of Keccak-f[1600] (θ, ρ, π, χ, ι with round constant `rc`). -/
def keccakRound (A : List Nat) (rc : Nat) : List Nat :=
  let B := keccakChi (keccakRhoPi (keccakTheta A))
  B.set 0 (B.getD 0 0 ^^^ rc)

/-- The full Keccak-f[1600] permutation: 24 rounds. -/
def keccakF (A : List Nat) : List Nat :=
  keccakRC.foldl keccakRound A

/-- Interpret eight bytes as one little-endian 64-bit lane. -/
def leLane (bs : List Nat) : Nat :=
  bs.foldr (fun b acc => b + 256 * acc) 0

/-- The first `136`-byte rate block of `l`, split into 17 little-endian lanes. -/
def blockLanes (bl : List Nat) : List Nat :=
  (List.range 17).map fun i => leLane ((bl.drop (8 * i)).take 8)

/-- XOR a rate block into the first 17 lanes of the sponge state. -/
def absorbBlock (st : List Nat) (bl : List Nat) : List Nat :=
  let lanes := blockLanes bl
  (List.range 25).map fun i => st.getD i 0 ^^^ (if i < 17 then lanes.getD i 0 else 0)

/-- Split a byte list into 136-byte chunks (`fuel` bounds the recursion). -/
def chunks136Go : Nat → List Nat → List (List Nat)
  | _, [] => []
  | 0, _ => []
  | fuel + 1, l => l.take 136 :: chunks136Go fuel (l.drop 136)

/-- Split a byte list into 136-byte chunks. -/
def chunks136 (l : List Nat) : List (List Nat) :=
  chunks136Go l.length l

/-- Keccak `pad10*1` padding to the 136-byte rate, with the `0x01` Keccak
domain byte (not the SHA-3 `0x06`). -/
def keccakPad (msg : List Nat) : List Nat :=
  let p := 136 - msg.length % 136
  if p = 1 then msg ++ [0x81]
  else msg ++ 0x01 :: (List.replicate (p - 2) 0 ++ [0x80])

/-- The 32 digest bytes: the first four lanes of the final state, each
serialized little-endian. -/
def squeeze256 (st : List Nat) : List Nat :=
  (List.range 32).map fun i => (st.getD (i / 8) 0 >>> (8 * (i % 8))) % 256

/-- Read a byte list as a big-endian natural (how Solidity casts a 32-byte
digest to `uint256`). -/
def bytesToNatBE (bs : List Nat) : Nat :=
  bs.foldl (fun acc b => acc * 256 + b) 0

/-- Absorb one rate block: XOR it in, then run the permutation. -/
def keccakAbsorb (st : List Nat) (bl : List Nat) : List Nat :=
  keccakF (absorbBlock st bl)

/-- Keccak-256 of a byte string, returned as the `uint256` value Solidity
sees. -/
def keccak256 (msg : List Nat) : Nat :=
  let padded := keccakPad msg
  let st := (chunks136 padded).foldl keccakAbsorb (List.replicate 25 0)
  bytesToNatBE (squeeze256 st)

/-- The 32 big-endian bytes of a `uint256` word, as `abi.encodePacked`
serializes it. -/
def beBytes32 (n : Nat) : List Nat :=
  (List.range 32).map fun i => (n >>> (8 * (31 - i))) % 256

/-- `abi.encodePacked(uint256 a, uint256 b)`: 64 bytes, each word big-endian. -/
def encodePacked2 (a b : Nat) : List Nat :=
  beBytes32 a ++ beBytes32 b

/-- The match-record key both `storeMatchResult` and `requestMatchDecryption`
compute: `uint256(keccak256(abi.encodePacked(buyOrderId, sellOrderId)))`. -/
def matchIdOf (buyOrderId sellOrderId : Nat) : Nat :=
  keccak256 (encodePacked2 buyOrderId sellOrderId)

/-- `struct EncryptedOrder` (ciphertext fields carried as their plaintexts). -/
structure EncryptedOrder where
  id : Nat
  trader : Nat
  encryptedPrice : Nat
  encryptedAmount : Nat
  encryptedType : Nat
  timestamp : Nat
  isActive : Bool
  deriving DecidableEq

/-- `struct MatchResult`. -/
structure MatchResult where
  buyOrderId : Nat
  sellOrderId : Nat
  encryptedPrice : Nat
  encryptedAmount : Nat
  isComplete : Bool
  deriving DecidableEq

/-- `struct DecryptedOrder`. -/
structure DecryptedOrder where
  price : Nat
  amount : Nat
  orderType : Nat
  isRevealed : Bool
  deriving DecidableEq

/-- The zero value a Solidity mapping returns for an absent key. -/
def zeroOrder : EncryptedOrder := ⟨0, 0, 0, 0, 0, 0, false⟩

/-- The zero value for an absent `MatchResult`. -/
def zeroMatch : MatchResult := ⟨0, 0, 0, 0, false⟩

/-- The zero value for an absent `DecryptedOrder`. -/
def zeroDecrypted : DecryptedOrder := ⟨0, 0, 0, false⟩

/-- The contract's storage. -/
structure DEXState where
  orderCount : Nat
  encryptedOrders : Nat → EncryptedOrder
  matchResults : Nat → MatchResult
  decryptedOrders : Nat → DecryptedOrder
  encryptedBuyPrices : List Nat
  encryptedSellPrices : List Nat
  requestToOrderId : Nat → Nat

/-- Point update of a Solidity mapping. -/
def mapSet {α : Type} (m : Nat → α) (k : Nat) (v : α) : Nat → α :=
  fun i => if i = k then v else m i

/-- The contract's events. -/
inductive Event
  | OrderSubmitted (id timestamp : Nat)
  | OrderMatched (buyId sellId : Nat)
  | OrderRevealed (id : Nat)
  deriving DecidableEq

/-- The failure kinds of the contract's `require`s, plus the checked-arithmetic
panic and the strict `abi.decode` failure of the host language. -/
inductive DexError
  | Unauthorized
  | NotActive
  | AlreadyRevealed
  | InvalidRequestId
  | ProofVerificationFailed
  | InactiveOrder
  | MatchNotComplete
  | DecodeFailure
  | ArithmeticPanic
  deriving DecidableEq

/-- `submitEncryptedOrder`: assigns the next id, stores the order as active,
initializes the shadow, and appends the side-masked price to each book
sequence (`FHE.select(isBuy/isSell, price, 0)`). -/
def submitEncryptedOrder (s : DEXState) (caller encryptedPrice encryptedAmount encryptedType timestamp : Nat) :
    DEXState × List Event :=
  let newId := s.orderCount + 1
  ({ s with
      orderCount := newId
      encryptedOrders := mapSet s.encryptedOrders newId
        ⟨newId, caller, encryptedPrice, encryptedAmount, encryptedType, timestamp, true⟩
      decryptedOrders := mapSet s.decryptedOrders newId ⟨0, 0, 0, false⟩
      encryptedBuyPrices :=
        s.encryptedBuyPrices ++ [if encryptedType == 0 then encryptedPrice else 0]
      encryptedSellPrices :=
        s.encryptedSellPrices ++ [if encryptedType == 1 then encryptedPrice else 0] },
   [Event.OrderSubmitted newId timestamp])

/-- `matchOrders`: the body only emits `OrderMatched(0, 0)`. -/
def matchOrders (s : DEXState) (_caller : Nat) : DEXState × List Event :=
  (s, [Event.OrderMatched 0 0])

/-- Set one order's `isActive` to `false`, leaving its other fields alone. -/
def deactivate (m : Nat → EncryptedOrder) (k : Nat) : Nat → EncryptedOrder :=
  mapSet m k { m k with isActive := false }

/-- `storeMatchResult`: keys the `MatchResult` by
`keccak256(abi.encodePacked(buyOrderId, sellOrderId))`, stores it complete,
marks both referenced orders inactive, and emits `OrderMatched`. -/
def storeMatchResult (s : DEXState) (_caller buyOrderId sellOrderId encryptedPrice encryptedAmount : Nat) :
    DEXState × List Event :=
  let matchId := matchIdOf buyOrderId sellOrderId
  ({ s with
      matchResults := mapSet s.matchResults matchId
        ⟨buyOrderId, sellOrderId, encryptedPrice, encryptedAmount, true⟩
      encryptedOrders := deactivate (deactivate s.encryptedOrders buyOrderId) sellOrderId },
   [Event.OrderMatched buyOrderId sellOrderId])

/-- `requestOrderDecryption`: `onlyTrader` guard, then rejects an already
revealed shadow, then records `requestId → orderId` (`reqId` stands for the
id the oracle's `FHE.requestDecryption` returns). -/
def requestOrderDecryption (s : DEXState) (caller orderId reqId : Nat) :
    Except DexError (DEXState × List Event) :=
  if caller ≠ (s.encryptedOrders orderId).trader then .error .Unauthorized
  else if (s.decryptedOrders orderId).isRevealed then .error .AlreadyRevealed
  else .ok ({ s with requestToOrderId := mapSet s.requestToOrderId reqId orderId }, [])

/-- `decryptOrder` callback: looks the order up by request id, rejects the
zero sentinel and an already revealed shadow, verifies the proof
(`sigOk` is the verdict of `FHE.checkSignatures`), decodes the three
`uint32` cleartexts, stores them in the shadow (the side through the
`uint8` cast), marks it revealed and emits `OrderRevealed`.  The caller is
never inspected. -/
def decryptOrder (s : DEXState) (_caller requestId : Nat) (cleartexts : List Nat) (sigOk : Bool) :
    Except DexError (DEXState × List Event) :=
  let orderId := s.requestToOrderId requestId
  if orderId = 0 then .error .InvalidRequestId
  else if (s.decryptedOrders orderId).isRevealed then .error .AlreadyRevealed
  else if !sigOk then .error .ProofVerificationFailed
  else
    match cleartexts with
    | p :: a :: t :: _ =>
        if p < 2 ^ 32 ∧ a < 2 ^ 32 ∧ t < 2 ^ 32 then
          .ok ({ s with decryptedOrders := mapSet s.decryptedOrders orderId ⟨p, a, t % 256, true⟩ },
               [Event.OrderRevealed orderId])
        else .error .DecodeFailure
    | _ => .error .DecodeFailure

/-- `cancelOrder`: `onlyTrader` guard, then rejects an inactive order, then
deactivates it and overwrites both book entries at index `orderId - 1`
with `FHE.asEuint32(0)` (each write guarded by a bounds check; the index
subtraction panics at `orderId = 0` under checked arithmetic). -/
def cancelOrder (s : DEXState) (caller orderId : Nat) :
    Except DexError (DEXState × List Event) :=
  if caller ≠ (s.encryptedOrders orderId).trader then .error .Unauthorized
  else if !(s.encryptedOrders orderId).isActive then .error .NotActive
  else if orderId = 0 then .error .ArithmeticPanic
  else
    let index := orderId - 1
    .ok ({ s with
            encryptedOrders := deactivate s.encryptedOrders orderId
            encryptedBuyPrices :=
              if index < s.encryptedBuyPrices.length then s.encryptedBuyPrices.set index 0
              else s.encryptedBuyPrices
            encryptedSellPrices :=
              if index < s.encryptedSellPrices.length then s.encryptedSellPrices.set index 0
              else s.encryptedSellPrices }, [])

/-- `requestMatchDecryption`: recomputes the packed-pair key, requires the
stored `MatchResult` to be complete, then records `requestId → matchId`. -/
def requestMatchDecryption (s : DEXState) (_caller buyId sellId reqId : Nat) :
    Except DexError (DEXState × List Event) :=
  let matchId := matchIdOf buyId sellId
  if !(s.matchResults matchId).isComplete then .error .MatchNotComplete
  else .ok ({ s with requestToOrderId := mapSet s.requestToOrderId reqId matchId }, [])

/-- `decryptMatchResult` callback: looks the match up by request id, rejects
the zero sentinel, verifies the proof and decodes the cleartexts — and then
stores nothing, flips no flag and emits nothing (the body ends in a
comment).  The caller is never inspected. -/
def decryptMatchResult (s : DEXState) (_caller requestId : Nat) (cleartexts : List Nat) (sigOk : Bool) :
    Except DexError (DEXState × List Event) :=
  let matchId := s.requestToOrderId requestId
  if matchId = 0 then .error .InvalidRequestId
  else if !sigOk then .error .ProofVerificationFailed
  else if cleartexts.all (· < 2 ^ 32) then .ok (s, [])
  else .error .DecodeFailure

/-- `canMatchOrders`: requires both orders active, then returns the
homomorphic conjunction `isBuy && isSell && priceMatch && amountMatch`
exactly as the contract associates it. -/
def canMatchOrders (s : DEXState) (buyId sellId : Nat) : Except DexError Bool :=
  let buy := s.encryptedOrders buyId
  let sell := s.encryptedOrders sellId
  if buy.isActive && sell.isActive then
    .ok (((buy.encryptedType == 0) && (sell.encryptedType == 1)) &&
      (decide (sell.encryptedPrice ≤ buy.encryptedPrice) &&
       decide (sell.encryptedAmount ≤ buy.encryptedAmount)))
  else .error .InactiveOrder

/-- `calculateExecutionPrice`: `FHE.div(FHE.add(price(buy), price(sell)), 2)`
— the homomorphic 32-bit add wraps modulo `2^32`, the division truncates. -/
def calculateExecutionPrice (s : DEXState) (buyId sellId : Nat) : Nat :=
  ((s.encryptedOrders buyId).encryptedPrice + (s.encryptedOrders sellId).encryptedPrice) % 2 ^ 32 / 2

/-- `calculateExecutionAmount`: homomorphic minimum via `lt` and `select`. -/
def calculateExecutionAmount (s : DEXState) (buyId sellId : Nat) : Nat :=
  let buy := s.encryptedOrders buyId
  let sell := s.encryptedOrders sellId
  if buy.encryptedAmount < sell.encryptedAmount then buy.encryptedAmount else sell.encryptedAmount

/-- One step of the best-bid scan of `findBestBidAsk`: update the running
value when `FHE.and(isBetterBid, FHE.and(isActive, isBuy))` holds. -/
def bidStep (s : DEXState) (acc i : Nat) : Nat :=
  let o := s.encryptedOrders (i + 1)
  let candidate := s.encryptedBuyPrices.getD i 0
  if decide (acc < candidate) && (o.isActive && (o.encryptedType == 0)) then candidate else acc

/-- One step of the best-ask scan of `findBestBidAsk`. -/
def askStep (s : DEXState) (acc i : Nat) : Nat :=
  let o := s.encryptedOrders (i + 1)
  let candidate := s.encryptedSellPrices.getD i 0
  if decide (candidate < acc) && (o.isActive && (o.encryptedType == 1)) then candidate else acc

/-- `findBestBidAsk`: best bid scanned from encrypted `0` over the buy
sequence, best ask scanned from encrypted `type(uint32).max` over the sell
sequence, each entry masked by `isActive` and its side. -/
def findBestBidAsk (s : DEXState) : Nat × Nat :=
  ((List.range s.encryptedBuyPrices.length).foldl (bidStep s) 0,
   (List.range s.encryptedSellPrices.length).foldl (askStep s) (2 ^ 32 - 1))

/-! ## Spec-side characterizations (named from the spec's words) -/

/-- "Active buy order" mask for the order at book position `i` (id `i + 1`). -/
def buyMask (s : DEXState) (i : Nat) : Bool :=
  (s.encryptedOrders (i + 1)).isActive && ((s.encryptedOrders (i + 1)).encryptedType == 0)

/-- "Active sell order" mask for the order at book position `i` (id `i + 1`). -/
def sellMask (s : DEXState) (i : Nat) : Bool :=
  (s.encryptedOrders (i + 1)).isActive && ((s.encryptedOrders (i + 1)).encryptedType == 1)

/-- Modelled from the spec: the best bid as §4.2 words it — the maximum of the
active buy orders' prices, folded from zero. -/
def bestBidSpec (s : DEXState) : Nat :=
  (List.range s.encryptedBuyPrices.length).foldl
    (fun acc i =>
      if buyMask s i then max acc (s.encryptedOrders (i + 1)).encryptedPrice else acc) 0

/-- Modelled from the spec: the best ask as §4.2 words it — the minimum of the
active sell orders' prices, folded from the 32-bit maximum. -/
def bestAskSpec (s : DEXState) : Nat :=
  (List.range s.encryptedSellPrices.length).foldl
    (fun acc i =>
      if sellMask s i then min acc (s.encryptedOrders (i + 1)).encryptedPrice else acc) (2 ^ 32 - 1)

/-- Book consistency: every active order's matching-side book entry carries
that order's price.  `submitEncryptedOrder` establishes it and `cancelOrder`
preserves it. -/
def bookConsistent (s : DEXState) : Bool :=
  ((List.range s.encryptedBuyPrices.length).all fun i =>
    !buyMask s i || (s.encryptedBuyPrices.getD i 0 == (s.encryptedOrders (i + 1)).encryptedPrice)) &&
  ((List.range s.encryptedSellPrices.length).all fun i =>
    !sellMask s i || (s.encryptedSellPrices.getD i 0 == (s.encryptedOrders (i + 1)).encryptedPrice))

/-! ## Helper lemmas -/

theorem mapSet_same {α : Type} (m : Nat → α) (k : Nat) (v : α) : mapSet m k v k = v := by
  simp [mapSet]

theorem mapSet_other {α : Type} (m : Nat → α) (k i : Nat) (v : α) (h : i ≠ k) :
    mapSet m k v i = m i := by
  simp [mapSet, h]

theorem deactivate_same (m : Nat → EncryptedOrder) (k : Nat) :
    deactivate m k k = { m k with isActive := false } :=
  mapSet_same m k _

theorem deactivate_other (m : Nat → EncryptedOrder) (k i : Nat) (h : i ≠ k) :
    deactivate m k i = m i :=
  mapSet_other m k i _ h

/-- The guarded "replace the running value when strictly better" fold of the
contract is the masked `max` fold. -/
theorem foldl_gt_mask_eq_max (l : List Nat) (cand : Nat → Nat) (m : Nat → Bool) (a : Nat) :
    l.foldl (fun acc i => if decide (acc < cand i) && m i then cand i else acc) a =
      l.foldl (fun acc i => if m i then max acc (cand i) else acc) a := by
  induction l generalizing a with
  | nil => rfl
  | cons x xs ih =>
      simp only [List.foldl_cons]
      have hstep : (if decide (a < cand x) && m x then cand x else a) =
          (if m x then max a (cand x) else a) := by
        cases hm : m x <;> simp [hm]
        rcases Nat.lt_or_ge a (cand x) with hlt | hge
        · simp [hlt, Nat.max_eq_right (Nat.le_of_lt hlt)]
        · simp [Nat.not_lt.mpr hge, Nat.max_eq_left hge]
      rw [hstep]
      exact ih _

/-- The symmetric statement for the best-ask scan and `min`. -/
theorem foldl_lt_mask_eq_min (l : List Nat) (cand : Nat → Nat) (m : Nat → Bool) (a : Nat) :
    l.foldl (fun acc i => if decide (cand i < acc) && m i then cand i else acc) a =
      l.foldl (fun acc i => if m i then min acc (cand i) else acc) a := by
  induction l generalizing a with
  | nil => rfl
  | cons x xs ih =>
      simp only [List.foldl_cons]
      have hstep : (if decide (cand x < a) && m x then cand x else a) =
          (if m x then min a (cand x) else a) := by
        cases hm : m x <;> simp [hm]
        rcases Nat.lt_or_ge (cand x) a with hlt | hge
        · simp [hlt, Nat.min_eq_right (Nat.le_of_lt hlt)]
        · simp [Nat.not_lt.mpr hge, Nat.min_eq_left hge]
      rw [hstep]
      exact ih _

/-- What a successful `cancelOrder` tells us: the guards passed and every
storage field of the result is determined. -/
theorem cancelOrder_ok_spec {s : DEXState} {c oid : Nat} {out : DEXState × List Event}
    (hc : cancelOrder s c oid = Except.ok out) :
    c = (s.encryptedOrders oid).trader ∧
    (s.encryptedOrders oid).isActive = true ∧
    oid ≠ 0 ∧
    out.1.orderCount = s.orderCount ∧
    out.1.encryptedOrders = deactivate s.encryptedOrders oid ∧
    out.1.matchResults = s.matchResults ∧
    out.1.decryptedOrders = s.decryptedOrders ∧
    out.1.encryptedBuyPrices =
      (if oid - 1 < s.encryptedBuyPrices.length then s.encryptedBuyPrices.set (oid - 1) 0
       else s.encryptedBuyPrices) ∧
    out.1.encryptedSellPrices =
      (if oid - 1 < s.encryptedSellPrices.length then s.encryptedSellPrices.set (oid - 1) 0
       else s.encryptedSellPrices) ∧
    out.1.requestToOrderId = s.requestToOrderId ∧
    out.2 = [] := by
  unfold cancelOrder at hc
  split_ifs at hc with h1 h2 h3
  cases hc
  refine ⟨Decidable.not_not.mp h1, ?_, h3, rfl, rfl, rfl, rfl, rfl, rfl, rfl, rfl⟩
  simpa using h2

/-- The contract's best-bid scan computes the spec's masked maximum. -/
theorem bestBid_eq_spec (s : DEXState) (h : bookConsistent s = true) :
    (findBestBidAsk s).1 = bestBidSpec s := by
  have hb := ((Bool.and_eq_true _ _).mp h).1
  rw [List.all_eq_true] at hb
  show (List.range s.encryptedBuyPrices.length).foldl (bidStep s) 0 = bestBidSpec s
  calc (List.range s.encryptedBuyPrices.length).foldl (bidStep s) 0
      = (List.range s.encryptedBuyPrices.length).foldl
          (fun acc i => if decide (acc < s.encryptedBuyPrices.getD i 0) && buyMask s i
            then s.encryptedBuyPrices.getD i 0 else acc) 0 := rfl
    _ = (List.range s.encryptedBuyPrices.length).foldl
          (fun acc i => if buyMask s i then max acc (s.encryptedBuyPrices.getD i 0) else acc) 0 :=
        foldl_gt_mask_eq_max _ _ _ 0
    _ = (List.range s.encryptedBuyPrices.length).foldl
          (fun acc i => if buyMask s i then max acc (s.encryptedOrders (i + 1)).encryptedPrice else acc) 0 := by
        apply List.foldl_ext
        intro a i hi
        cases hm : buyMask s i with
        | false => simp
        | true =>
            have hcons := hb i hi
            rw [hm] at hcons
            simp only [Bool.not_true, Bool.false_or, beq_iff_eq] at hcons
            rw [List.getD_eq_getElem?_getD] at hcons
            simp [hcons]
    _ = bestBidSpec s := rfl

/-- The contract's best-ask scan computes the spec's masked minimum. -/
theorem bestAsk_eq_spec (s : DEXState) (h : bookConsistent s = true) :
    (findBestBidAsk s).2 = bestAskSpec s := by
  have hs := ((Bool.and_eq_true _ _).mp h).2
  rw [List.all_eq_true] at hs
  show (List.range s.encryptedSellPrices.length).foldl (askStep s) (2 ^ 32 - 1) = bestAskSpec s
  calc (List.range s.encryptedSellPrices.length).foldl (askStep s) (2 ^ 32 - 1)
      = (List.range s.encryptedSellPrices.length).foldl
          (fun acc i => if decide (s.encryptedSellPrices.getD i 0 < acc) && sellMask s i
            then s.encryptedSellPrices.getD i 0 else acc) (2 ^ 32 - 1) := rfl
    _ = (List.range s.encryptedSellPrices.length).foldl
          (fun acc i => if sellMask s i then min acc (s.encryptedSellPrices.getD i 0) else acc)
          (2 ^ 32 - 1) :=
        foldl_lt_mask_eq_min _ _ _ _
    _ = (List.range s.encryptedSellPrices.length).foldl
          (fun acc i => if sellMask s i then min acc (s.encryptedOrders (i + 1)).encryptedPrice else acc)
          (2 ^ 32 - 1) := by
        apply List.foldl_ext
        intro a i hi
        cases hm : sellMask s i with
        | false => simp
        | true =>
            have hcons := hs i hi
            rw [hm] at hcons
            simp only [Bool.not_true, Bool.false_or, beq_iff_eq] at hcons
            rw [List.getD_eq_getElem?_getD] at hcons
            simp [hcons]
    _ = bestAskSpec s := rfl

/-- A successful `cancelOrder` preserves book consistency: the cancelled
order becomes inactive (so its mask is off) and no other position changes. -/
theorem cancel_preserves_bookConsistent {s : DEXState} {c oid : Nat} {out : DEXState × List Event}
    (h : bookConsistent s = true) (hc : cancelOrder s c oid = Except.ok out) :
    bookConsistent out.1 = true := by
  obtain ⟨-, -, h0, -, hords, -, -, hbuy, hsell, -, -⟩ := cancelOrder_ok_spec hc
  have hb := ((Bool.and_eq_true _ _).mp h).1
  have hs := ((Bool.and_eq_true _ _).mp h).2
  rw [List.all_eq_true] at hb hs
  have hlenb : out.1.encryptedBuyPrices.length = s.encryptedBuyPrices.length := by
    rw [hbuy]; split <;> simp
  have hlens : out.1.encryptedSellPrices.length = s.encryptedSellPrices.length := by
    rw [hsell]; split <;> simp
  unfold bookConsistent
  rw [Bool.and_eq_true]
  constructor
  · rw [List.all_eq_true]
    intro i hi
    rw [List.mem_range, hlenb] at hi
    by_cases hio : i + 1 = oid
    · have hmf : buyMask out.1 i = false := by
        unfold buyMask
        rw [hords, hio, deactivate_same]
        simp
      rw [hmf]
      simp
    · have hmask : buyMask out.1 i = buyMask s i := by
        unfold buyMask
        rw [hords, deactivate_other _ _ _ hio]
      have hgd : out.1.encryptedBuyPrices.getD i 0 = s.encryptedBuyPrices.getD i 0 := by
        rw [hbuy]
        split
        · rw [List.getD_eq_getElem?_getD, List.getD_eq_getElem?_getD,
              List.getElem?_set_ne (by omega : oid - 1 ≠ i)]
        · rfl
      rw [hmask, hgd, hords, deactivate_other _ _ _ hio]
      exact hb i (List.mem_range.mpr hi)
  · rw [List.all_eq_true]
    intro i hi
    rw [List.mem_range, hlens] at hi
    by_cases hio : i + 1 = oid
    · have hmf : sellMask out.1 i = false := by
        unfold sellMask
        rw [hords, hio, deactivate_same]
        simp
      rw [hmf]
      simp
    · have hmask : sellMask out.1 i = sellMask s i := by
        unfold sellMask
        rw [hords, deactivate_other _ _ _ hio]
      have hgd : out.1.encryptedSellPrices.getD i 0 = s.encryptedSellPrices.getD i 0 := by
        rw [hsell]
        split
        · rw [List.getD_eq_getElem?_getD, List.getD_eq_getElem?_getD,
              List.getElem?_set_ne (by omega : oid - 1 ≠ i)]
        · rfl
      rw [hmask, hgd, hords, deactivate_other _ _ _ hio]
      exact hs i (List.mem_range.mpr hi)

/-! ## Concrete states for witnesses and counterexamples -/

/-- The freshly deployed contract: every mapping at its zero value. -/
def emptyState : DEXState :=
  ⟨0, fun _ => zeroOrder, fun _ => zeroMatch, fun _ => zeroDecrypted, [], [], fun _ => 0⟩

/-- Two active buy orders of trader 7: order 1 at price 100 and order 2 at
price 999999, with consistent book sequences. -/
def twoBuyState : DEXState :=
  ⟨2,
   fun i => if i = 1 then ⟨1, 7, 100, 1, 0, 0, true⟩
     else if i = 2 then ⟨2, 7, 999999, 1, 0, 10, true⟩ else zeroOrder,
   fun _ => zeroMatch, fun _ => zeroDecrypted, [100, 999999], [0, 0], fun _ => 0⟩

/-- The spec's §8 scenario: buy order 1 {price 2500, amount 2, side 0} and
sell order 2 {price 2400, amount 2, side 1}, both of trader 7 and active. -/
def midState : DEXState :=
  ⟨2,
   fun i => if i = 1 then ⟨1, 7, 2500, 2, 0, 0, true⟩
     else if i = 2 then ⟨2, 7, 2400, 2, 1, 0, true⟩ else zeroOrder,
   fun _ => zeroMatch, fun _ => zeroDecrypted, [2500, 0], [0, 2400], fun _ => 0⟩

/-- Two orders whose prices sit at the top of the 32-bit range. -/
def maxState : DEXState :=
  ⟨2,
   fun i => if i = 1 then ⟨1, 7, 4294967295, 2, 0, 0, true⟩
     else if i = 2 then ⟨2, 7, 4294967295, 2, 1, 0, true⟩ else zeroOrder,
   fun _ => zeroMatch, fun _ => zeroDecrypted, [4294967295, 0], [0, 4294967295], fun _ => 0⟩

/-- One active buy order of trader 7 with an outstanding decryption request:
request id 5 targets order 1, whose shadow is still unrevealed. -/
def reqState : DEXState :=
  ⟨1,
   fun i => if i = 1 then ⟨1, 7, 2500, 2, 0, 0, true⟩ else zeroOrder,
   fun _ => zeroMatch, fun _ => zeroDecrypted, [2500], [0],
   fun i => if i = 5 then 1 else 0⟩

/-- Like `reqState`, but order 1's shadow has already been revealed. -/
def revState : DEXState :=
  ⟨1,
   fun i => if i = 1 then ⟨1, 7, 2500, 2, 0, 0, true⟩ else zeroOrder,
   fun _ => zeroMatch,
   fun i => if i = 1 then ⟨2500, 2, 0, true⟩ else zeroDecrypted, [2500], [0],
   fun i => if i = 5 then 1 else 0⟩

/-- A state whose request id 5 points at a (nonzero) match key. -/
def matchCbState : DEXState :=
  ⟨0, fun _ => zeroOrder, fun _ => zeroMatch, fun _ => zeroDecrypted, [], [],
   fun i => if i = 5 then 77 else 0⟩

/-- The state a successful `cancelOrder midState 7 1` leaves behind. -/
def midAfterCancel : DEXState × List Event :=
  match cancelOrder midState 7 1 with
  | Except.ok out => out
  | Except.error _ => (midState, [])

/-! ## The claims -/

/-- C5: for every order id and caller, `cancelOrder` fails with
`Unauthorized` unless the caller is the order's trader, fails with
`NotActive` if the order is already inactive, and otherwise deactivates the
order and overwrites both of its book entries with the encrypted zero. -/
theorem claim_C5_cancelOrder (s : DEXState) (c oid : Nat)
    (h0 : oid ≠ 0)
    (hbl : oid - 1 < s.encryptedBuyPrices.length)
    (hsl : oid - 1 < s.encryptedSellPrices.length) :
    (c ≠ (s.encryptedOrders oid).trader →
      cancelOrder s c oid = Except.error DexError.Unauthorized) ∧
    (c = (s.encryptedOrders oid).trader → (s.encryptedOrders oid).isActive = false →
      cancelOrder s c oid = Except.error DexError.NotActive) ∧
    (c = (s.encryptedOrders oid).trader → (s.encryptedOrders oid).isActive = true →
      ∃ t, cancelOrder s c oid = Except.ok t ∧
        (t.1.encryptedOrders oid).isActive = false ∧
        t.1.encryptedBuyPrices.getD (oid - 1) 1 = 0 ∧
        t.1.encryptedSellPrices.getD (oid - 1) 1 = 0) := by
  refine ⟨?_, ?_, ?_⟩
  · intro hne
    unfold cancelOrder
    rw [if_pos hne]
  · intro he hact
    unfold cancelOrder
    rw [if_neg (by simp [he]), if_pos (by simp [hact])]
  · intro he hact
    have hres : cancelOrder s c oid = Except.ok
        ({ s with
            encryptedOrders := deactivate s.encryptedOrders oid
            encryptedBuyPrices := s.encryptedBuyPrices.set (oid - 1) 0
            encryptedSellPrices := s.encryptedSellPrices.set (oid - 1) 0 }, []) := by
      simp only [cancelOrder]
      rw [if_neg (by simp [he]), if_neg (by simp [hact]), if_neg h0, if_pos hbl, if_pos hsl]
    refine ⟨_, hres, ?_, ?_, ?_⟩
    · show ((deactivate s.encryptedOrders oid) oid).isActive = false
      rw [deactivate_same]
    · show (s.encryptedBuyPrices.set (oid - 1) 0).getD (oid - 1) 1 = 0
      rw [List.getD_eq_getElem?_getD, List.getElem?_set_self',
          List.getElem?_eq_getElem hbl]
      rfl
    · show (s.encryptedSellPrices.set (oid - 1) 0).getD (oid - 1) 1 = 0
      rw [List.getD_eq_getElem?_getD, List.getElem?_set_self',
          List.getElem?_eq_getElem hsl]
      rfl

/-- C5 witness: trader 7 cancels their active order 1 in the §8 scenario
state; it deactivates and both book entries become 0. -/
theorem claim_C5_cancelOrder_witness :
    ∃ t, cancelOrder midState 7 1 = Except.ok t ∧
      (t.1.encryptedOrders 1).isActive = false ∧
      t.1.encryptedBuyPrices.getD 0 1 = 0 ∧
      t.1.encryptedSellPrices.getD 0 1 = 0 :=
  (claim_C5_cancelOrder midState 7 1 (by decide) (by decide) (by decide)).2.2 rfl rfl

/-- C6: `canMatchOrders` fails with `InactiveOrder` unless both orders are
active, and otherwise returns true exactly when the buy side is 0, the sell
side is 1, the buy price is at least the sell price, and the buy amount is
at least the sell amount. -/
theorem claim_C6_canMatch (s : DEXState) (b q : Nat) :
    (¬((s.encryptedOrders b).isActive = true ∧ (s.encryptedOrders q).isActive = true) →
      canMatchOrders s b q = Except.error DexError.InactiveOrder) ∧
    ∀ r, canMatchOrders s b q = Except.ok r →
      (r = true ↔ (s.encryptedOrders b).encryptedType = 0 ∧
        (s.encryptedOrders q).encryptedType = 1 ∧
        (s.encryptedOrders q).encryptedPrice ≤ (s.encryptedOrders b).encryptedPrice ∧
        (s.encryptedOrders q).encryptedAmount ≤ (s.encryptedOrders b).encryptedAmount) := by
  constructor
  · intro hna
    unfold canMatchOrders
    rw [if_neg (by simpa [Bool.and_eq_true] using hna)]
  · intro r hr
    simp only [canMatchOrders] at hr
    split_ifs at hr with hact
    all_goals cases hr
    simp [Bool.and_eq_true, beq_iff_eq, decide_eq_true_iff, and_assoc]

/-- C7 (amended): the execution price is the truncated midpoint whenever the
price sum stays inside the 32-bit ciphertext domain; in general the
homomorphic sum wraps modulo `2^32` first. -/
theorem claim_C7_executionPrice (s : DEXState) (b q : Nat)
    (h : (s.encryptedOrders b).encryptedPrice + (s.encryptedOrders q).encryptedPrice < 2 ^ 32) :
    calculateExecutionPrice s b q =
      ((s.encryptedOrders b).encryptedPrice + (s.encryptedOrders q).encryptedPrice) / 2 := by
  unfold calculateExecutionPrice
  rw [Nat.mod_eq_of_lt h]

/-- C7 witness: the spec's §8 scenario — prices 2500 and 2400 give 2450. -/
theorem claim_C7_executionPrice_witness :
    calculateExecutionPrice midState 1 2 = 2450 :=
  (claim_C7_executionPrice midState 1 2 (by decide)).trans (by decide)

/-- C7 counterexample: with both prices at `2^32 - 1` the homomorphic sum
wraps, so the result is `2^31 - 1`, not the true midpoint `2^32 - 1`. -/
theorem claim_C7_counterexample :
    calculateExecutionPrice maxState 1 2 = 2147483647 ∧
    ((maxState.encryptedOrders 1).encryptedPrice +
      (maxState.encryptedOrders 2).encryptedPrice) / 2 = 4294967295 := by
  decide

/-- C8 (amended): on a book-consistent ledger the scan's best bid is the
masked maximum over active buy orders (folded from encrypted zero) and the
best ask the masked minimum over active sell orders (folded from the 32-bit
maximum), so inactive and wrong-side orders have no influence; after any
successful cancellation the extrema are again exactly the folds over the
remaining active orders (cancelling a currently extremal order therefore
moves the extremum rather than leaving it unchanged). -/
theorem claim_C8_bestBidAsk (s : DEXState) (h : bookConsistent s = true) :
    (findBestBidAsk s).1 = bestBidSpec s ∧ (findBestBidAsk s).2 = bestAskSpec s ∧
    ∀ c oid out, cancelOrder s c oid = Except.ok out →
      (findBestBidAsk out.1).1 = bestBidSpec out.1 ∧
      (findBestBidAsk out.1).2 = bestAskSpec out.1 := by
  refine ⟨bestBid_eq_spec s h, bestAsk_eq_spec s h, ?_⟩
  intro c oid out hc
  have h2 := cancel_preserves_bookConsistent h hc
  exact ⟨bestBid_eq_spec _ h2, bestAsk_eq_spec _ h2⟩

/-- C8 witness: the two-buy-order state is book consistent and the scan
returns the masked folds. -/
theorem claim_C8_bestBidAsk_witness :
    bookConsistent twoBuyState = true ∧
    (findBestBidAsk twoBuyState).1 = bestBidSpec twoBuyState ∧
    (findBestBidAsk twoBuyState).2 = bestAskSpec twoBuyState :=
  ⟨by decide, (claim_C8_bestBidAsk twoBuyState (by decide)).1,
   (claim_C8_bestBidAsk twoBuyState (by decide)).2.1⟩

/-- The state a successful `cancelOrder twoBuyState 7 2` leaves behind. -/
def twoBuyAfterCancel : DEXState × List Event :=
  match cancelOrder twoBuyState 7 2 with
  | Except.ok out => out
  | Except.error _ => (twoBuyState, [])

/-- C8 counterexample: cancelling the extreme buy order (price 999999) moves
the best bid from 999999 down to 100, so cancellation does not leave the
extrema unchanged. -/
theorem claim_C8_counterexample :
    (findBestBidAsk twoBuyState).1 = 999999 ∧
    (cancelOrder twoBuyState 7 2).isOk = true ∧
    (findBestBidAsk twoBuyAfterCancel.1).1 = 100 := by
  decide

/-- C9: after a trader successfully cancels their order, a reveal request by
that same trader still succeeds while the shadow is unrevealed — eligibility
never looks at the `active` flag. -/
theorem claim_C9_revealAfterCancel (s : DEXState) (c oid rid : Nat)
    (out : DEXState × List Event)
    (hc : cancelOrder s c oid = Except.ok out)
    (hrev : (s.decryptedOrders oid).isRevealed = false) :
    (requestOrderDecryption out.1 c oid rid).isOk = true := by
  obtain ⟨he, -, -, -, hords, -, hdec, -, -, -, -⟩ := cancelOrder_ok_spec hc
  have h1 : ¬ (c ≠ (out.1.encryptedOrders oid).trader) := by
    rw [hords, deactivate_same]
    simp [he]
  have h2 : (out.1.decryptedOrders oid).isRevealed = false := by
    rw [hdec]
    exact hrev
  unfold requestOrderDecryption
  rw [if_neg h1, h2]
  rfl

/-- C9 witness: trader 7 cancels order 1 and then successfully requests its
decryption. -/
theorem claim_C9_revealAfterCancel_witness :
    (requestOrderDecryption midAfterCancel.1 7 1 11).isOk = true :=
  claim_C9_revealAfterCancel midState 7 1 11 midAfterCancel rfl rfl

/-- C10: `matchOrders` changes nothing — the post-state is the pre-state in
every component — and only emits `OrderMatched(0, 0)`. -/
theorem claim_C10_matchOrders (s : DEXState) (c : Nat) :
    (matchOrders s c).1 = s ∧ (matchOrders s c).2 = [Event.OrderMatched 0 0] :=
  ⟨rfl, rfl⟩

/-- C1 (amended): the match key is the same deterministic function of the
ordered pair in `storeMatchResult` and `requestMatchDecryption`, so a commit
followed by a reveal request with the same argument order always finds the
completed record. -/
theorem claim_C1_matchKey (s : DEXState) (c1 c2 buyId sellId p a rid : Nat) :
    (requestMatchDecryption ((storeMatchResult s c1 buyId sellId p a).1) c2 buyId sellId rid).isOk
      = true := by
  simp only [requestMatchDecryption, storeMatchResult, mapSet_same]
  rfl

set_option maxRecDepth 1000000 in
/-- C1 counterexample: the packed-pair keccak key is not order invariant —
`(1, 2)` and `(2, 1)` give different keys, and a match committed as `(1, 2)`
cannot be found by a reveal request for `(2, 1)`. -/
theorem claim_C1_counterexample :
    matchIdOf 1 2 ≠ matchIdOf 2 1 ∧
    (requestMatchDecryption ((storeMatchResult emptyState 0 1 2 10 20).1) 0 2 1 9).isOk
      = false := by
  decide

/-- C2 (amended): a successful order callback stores price, amount and the
`uint8`-cast side in the shadow, marks it revealed and emits
`OrderRevealed`; a successful match callback verifies and decodes but stores
nothing and emits nothing. -/
theorem claim_C2_callbacks (s : DEXState) (c rid p a t : Nat) (rest cts : List Nat)
    (h0 : s.requestToOrderId rid ≠ 0)
    (hrev : (s.decryptedOrders (s.requestToOrderId rid)).isRevealed = false)
    (hp : p < 2 ^ 32) (ha : a < 2 ^ 32) (ht : t < 2 ^ 32)
    (hcts : cts.all (fun x => decide (x < 2 ^ 32)) = true) :
    (∃ s2, decryptOrder s c rid (p :: a :: t :: rest) true =
        Except.ok (s2, [Event.OrderRevealed (s.requestToOrderId rid)]) ∧
      s2.decryptedOrders (s.requestToOrderId rid) = ⟨p, a, t % 256, true⟩) ∧
    decryptMatchResult s c rid cts true = Except.ok (s, []) := by
  constructor
  · have hs2 : decryptOrder s c rid (p :: a :: t :: rest) true =
        Except.ok ({ s with decryptedOrders := mapSet s.decryptedOrders (s.requestToOrderId rid) (DecryptedOrder.mk p a (t % 256) true) }, [Event.OrderRevealed (s.requestToOrderId rid)]) := by
      simp only [decryptOrder, h0, if_false, hrev]
      simp
      exact ⟨hp, ha, ht⟩
    exact ⟨_, hs2, mapSet_same _ _ _⟩
  · have hall : ∀ x ∈ cts, x < 2 ^ 32 := by
      intro x hx
      simpa using List.all_eq_true.mp hcts x hx
    simp [decryptMatchResult, h0, hall]
    exact fun x hx => hall x hx

/-- C2 witness: on `reqState`, the oracle callback for request 5 reveals
order 1's shadow, and the match callback leaves the state untouched. -/
theorem claim_C2_callbacks_witness :
    (∃ s2, decryptOrder reqState 9 5 [111, 222, 1] true =
        Except.ok (s2, [Event.OrderRevealed 1]) ∧
      s2.decryptedOrders 1 = ⟨111, 222, 1, true⟩) ∧
    decryptMatchResult reqState 9 5 [111] true = Except.ok (reqState, []) :=
  claim_C2_callbacks reqState 9 5 111 222 1 [] [111]
    (by decide) rfl (by decide) (by decide) (by decide) (by decide)

/-- C2 counterexample: a successful match callback returns the state
unchanged with no events — nothing is stored, no flag is set, nothing is
emitted. -/
theorem claim_C2_counterexample :
    decryptMatchResult matchCbState 4 5 [2450, 2] true = Except.ok (matchCbState, []) := rfl

/-- C3 (amended): an order whose shadow is already revealed deterministically
rejects a further callback with `AlreadyRevealed`; a match target has no
revealed flag, and every successful match callback — first or repeated —
returns the state unchanged, so nothing can be overwritten. -/
theorem claim_C3_atMostOnce (s : DEXState) (c rid : Nat) (cts : List Nat) (sig : Bool)
    (h0 : s.requestToOrderId rid ≠ 0)
    (hrev : (s.decryptedOrders (s.requestToOrderId rid)).isRevealed = true) :
    decryptOrder s c rid cts sig = Except.error DexError.AlreadyRevealed ∧
    ∀ out, decryptMatchResult s c rid cts sig = Except.ok out → out = (s, []) := by
  constructor
  · simp [decryptOrder, h0, hrev]
  · intro out h
    simp only [decryptMatchResult] at h
    split_ifs at h
    all_goals cases h
    rfl

/-- C3 witness: on `revState` the second order callback for request 5 fails
with `AlreadyRevealed`, and any accepted match callback is a no-op. -/
theorem claim_C3_atMostOnce_witness :
    decryptOrder revState 3 5 [1, 2, 3] true = Except.error DexError.AlreadyRevealed ∧
    ∀ out, decryptMatchResult revState 3 5 [1, 2, 3] true = Except.ok out →
      out = (revState, []) :=
  claim_C3_atMostOnce revState 3 5 [1, 2, 3] true (by decide) rfl

/-- C3 counterexample: a first match callback for request 5 succeeds and
leaves the state unchanged, and the identical stale second callback on that
unchanged state succeeds as well instead of failing `AlreadyRevealed`. -/
theorem claim_C3_counterexample :
    decryptMatchResult matchCbState 4 5 [9, 9] true = Except.ok (matchCbState, []) ∧
    (decryptMatchResult matchCbState 4 5 [8, 8] true).isOk = true :=
  ⟨rfl, rfl⟩

/-- C4 (amended): neither callback ever inspects the caller — the outcome is
identical for every pair of callers, oracle or not. -/
theorem claim_C4_callbacks (s : DEXState) (c1 c2 rid : Nat) (cts : List Nat) (sig : Bool) :
    decryptOrder s c1 rid cts sig = decryptOrder s c2 rid cts sig ∧
    decryptMatchResult s c1 rid cts sig = decryptMatchResult s c2 rid cts sig :=
  ⟨rfl, rfl⟩

/-- C4 counterexample: two distinct callers (at most one of which can be the
oracle identity) both succeed in invoking the order callback on `reqState`,
so a non-oracle caller's call does not fail. -/
theorem claim_C4_counterexample :
    (decryptOrder reqState 1 5 [10, 20, 0] true).isOk = true ∧
    (decryptOrder reqState 2 5 [10, 20, 0] true).isOk = true := by
  decide
